/-
  Verification of the Outback Stockbook persistence layer and the
  UI-level flows its specification describes.

  Shallow embedding conventions:
  * calendar dates and timestamps are modelled as `Int` (days / instants);
    `date + timedelta(days = d)` becomes integer addition;
  * SQL `REAL` columns (weights, condition scores, areas) are modelled as `ℚ`;
  * nullable columns are `Option _`; the SQL comparison `NULL >= x` is falsy;
  * each table of the SQLite schema is a list of entity records together with
    a `next_*_id` counter modelling the AUTOINCREMENT primary key;
  * `datetime.now()` is an explicit `now : Int` argument;
  * `ORDER BY` clauses and Python's stable `sorted` are both modelled by the
    stable insertion sort `insOrd` below.
-/
import Mathlib

namespace Stockbook

inductive AnimalStatus
  | alive | sold | dead | missing
deriving DecidableEq

inductive Species
  | cattle | sheep
deriving DecidableEq

inductive AnimalSex
  | male | female | steer | wether
deriving DecidableEq

inductive EventType
  | movement | treatment | weigh | death | sale | birth | pregnancy_test | joining | note
deriving DecidableEq

inductive TreatmentRoute
  | oral | subcutaneous | intramuscular | pour_on | spray | ear_tag | intraruminal | other
deriving DecidableEq

structure Paddock where
  id : Option Nat := none
  name : String := ""
  area_hectares : Option ℚ := none
  notes : String := ""
  pic : String := ""
  created_at : Option Int := none
  updated_at : Option Int := none
deriving DecidableEq

structure Mob where
  id : Option Nat := none
  name : String := ""
  species : Species := .cattle
  description : String := ""
  current_paddock_id : Option Nat := none
  created_at : Option Int := none
  updated_at : Option Int := none
deriving DecidableEq

structure Animal where
  id : Option Nat := none
  eid : String := ""
  visual_tag : String := ""
  species : Species := .cattle
  breed : String := ""
  sex : AnimalSex := .female
  date_of_birth : Option Int := none
  status : AnimalStatus := .alive
  mob_id : Option Nat := none
  dam_id : Option Nat := none
  sire_id : Option Nat := none
  notes : String := ""
  created_at : Option Int := none
  updated_at : Option Int := none
deriving DecidableEq

structure Product where
  id : Option Nat := none
  name : String := ""
  active_ingredient : String := ""
  category : String := ""
  meat_whp_days : Int := 0
  milk_whp_days : Int := 0
  esi_days : Int := 0
  default_dose : String := ""
  default_route : TreatmentRoute := .subcutaneous
  notes : String := ""
  created_at : Option Int := none
  updated_at : Option Int := none
deriving DecidableEq

structure Event where
  id : Option Nat := none
  event_type : EventType := .note
  event_date : Int := 0
  animal_id : Option Nat := none
  mob_id : Option Nat := none
  notes : String := ""
  recorded_by : String := ""
  created_at : Option Int := none
deriving DecidableEq

structure MovementEvent where
  id : Option Nat := none
  event_id : Option Nat := none
  from_paddock_id : Option Nat := none
  to_paddock_id : Option Nat := none
  reason : String := ""
  head_count : Int := 0
deriving DecidableEq

structure TreatmentEvent where
  id : Option Nat := none
  event_id : Option Nat := none
  product_id : Option Nat := none
  batch_number : String := ""
  dose : String := ""
  route : TreatmentRoute := .subcutaneous
  administered_by : String := ""
  meat_whp_end : Option Int := none
  milk_whp_end : Option Int := none
  esi_end : Option Int := none
deriving DecidableEq

structure WeighEvent where
  id : Option Nat := none
  event_id : Option Nat := none
  weight_kg : ℚ := 0
  condition_score : Option ℚ := none
deriving DecidableEq

structure Task where
  id : Option Nat := none
  title : String := ""
  description : String := ""
  due_date : Option Int := none
  source_event_id : Option Nat := none
  animal_id : Option Nat := none
  mob_id : Option Nat := none
  completed : Bool := false
  completed_at : Option Int := none
  created_at : Option Int := none
deriving DecidableEq

/-- The single-file relational store: one list per table plus the
AUTOINCREMENT counters of the integer primary keys. -/
structure DB where
  paddocks : List Paddock := []
  mobs : List Mob := []
  animals : List Animal := []
  products : List Product := []
  events : List Event := []
  movement_events : List MovementEvent := []
  treatment_events : List TreatmentEvent := []
  weigh_events : List WeighEvent := []
  tasks : List Task := []
  next_paddock_id : Nat := 1
  next_mob_id : Nat := 1
  next_animal_id : Nat := 1
  next_product_id : Nat := 1
  next_event_id : Nat := 1
  next_movement_id : Nat := 1
  next_treatment_id : Nat := 1
  next_weigh_id : Nat := 1
  next_task_id : Nat := 1
deriving DecidableEq

/-- The freshly created schema: every table empty, every rowid counter at 1. -/
def emptyDB : DB := {}

/-! ### A stable sort

`ORDER BY` clauses of the store and Python's stable `sorted` are both
modelled by the stable insertion sort `sortOrd`. -/

/-- Insert `a` into a sorted list, before the first element it is
`le`-below, hence after every earlier element with an equal key (stable). -/
def insOrd (le : α → α → Bool) (a : α) : List α → List α
  | [] => [a]
  | b :: l => if le a b then a :: b :: l else b :: insOrd le a l

/-- Stable insertion sort. -/
def sortOrd (le : α → α → Bool) : List α → List α
  | [] => []
  | a :: l => insOrd le a (sortOrd le l)

theorem perm_insOrd (le : α → α → Bool) (a : α) (l : List α) :
    List.Perm (insOrd le a l) (a :: l) := by
  induction l with
  | nil => exact List.Perm.refl _
  | cons b t ih =>
    simp only [insOrd]
    by_cases h : le a b = true
    · simp [h]
    · simp only [h, if_false]
      exact ((ih.cons b).trans (List.Perm.swap a b t))

theorem perm_sortOrd (le : α → α → Bool) (l : List α) : List.Perm (sortOrd le l) l := by
  induction l with
  | nil => exact List.Perm.refl _
  | cons a t ih => exact (perm_insOrd le a (sortOrd le t)).trans (ih.cons a)

theorem mem_sortOrd (le : α → α → Bool) (l : List α) (x : α) :
    x ∈ sortOrd le l ↔ x ∈ l :=
  (perm_sortOrd le l).mem_iff

theorem pairwise_insOrd (le : α → α → Bool)
    (htot : ∀ a b, le a b = true ∨ le b a = true)
    (htrans : ∀ a b c, le a b = true → le b c = true → le a c = true)
    (a : α) (l : List α) (hl : l.Pairwise (fun x y => le x y = true)) :
    (insOrd le a l).Pairwise (fun x y => le x y = true) := by
  induction l with
  | nil => simp [insOrd]
  | cons b t ih =>
    rcases List.pairwise_cons.mp hl with ⟨hb, ht⟩
    simp only [insOrd]
    by_cases h : le a b = true
    · rw [if_pos h]
      refine List.pairwise_cons.mpr ⟨?_, hl⟩
      intro x hx
      rcases List.mem_cons.mp hx with rfl | hx
      · exact h
      · exact htrans a b x h (hb x hx)
    · have hba : le b a = true := (htot a b).resolve_left h
      rw [if_neg h]
      refine List.pairwise_cons.mpr ⟨?_, ih ht⟩
      intro x hx
      rcases List.mem_cons.mp ((perm_insOrd le a t).mem_iff.mp hx) with rfl | h2
      · exact hba
      · exact hb x h2

theorem pairwise_sortOrd (le : α → α → Bool)
    (htot : ∀ a b, le a b = true ∨ le b a = true)
    (htrans : ∀ a b c, le a b = true → le b c = true → le a c = true)
    (l : List α) :
    (sortOrd le l).Pairwise (fun x y => le x y = true) := by
  induction l with
  | nil => simp [sortOrd]
  | cons a t ih => exact pairwise_insOrd le htot htrans a (sortOrd le t) ih

/-! ### SQL helpers -/

/-- SQL `col >= ?` on a nullable DATE column: `NULL >= x` is not satisfied. -/
def sqlGe (o : Option Int) (d : Int) : Bool :=
  match o with
  | some x => decide (d ≤ x)
  | none => false

/-- SQL `col <= ?` on a nullable DATE column: `NULL <= x` is not satisfied. -/
def sqlLe (o : Option Int) (d : Int) : Bool :=
  match o with
  | some x => decide (x ≤ d)
  | none => false

/-- `ORDER BY <text>, <text>`: lexicographic on two string keys. -/
def strPairOrd (x1 y1 x2 y2 : String) : Bool :=
  decide (x1 < x2) || (x1 == x2 && decide (y1 ≤ y2))

/-- Shared `ORDER BY visual_tag, eid` of the animal queries. -/
def animalTagOrd (a b : Animal) : Bool :=
  strPairOrd a.visual_tag a.eid b.visual_tag b.eid

/-- ASCII lower-casing, the case folding SQLite's `LIKE` applies. -/
def lowerChar (c : Char) : Char :=
  if 'A' ≤ c ∧ c ≤ 'Z' then Char.ofNat (c.toNat + 32) else c

/-- SQLite `LIKE` pattern matching: `%` matches any sequence, `_` any single
character, any other character matches itself up to ASCII case. -/
def likeMatch : List Char → List Char → Bool
  | [], s => s.isEmpty
  | c :: p, s =>
    if c = '%' then
      likeMatch p s ||
        match s with
        | [] => false
        | _ :: s' => likeMatch (c :: p) s'
    else
      match s with
      | [] => false
      | d :: s' =>
        if c = '_' then likeMatch p s'
        else (lowerChar c == lowerChar d) && likeMatch p s'
termination_by p s => (p.length, s.length)

/-! ### Persistence operations (`Database` methods) -/

/-- `Database.save_paddock`: insert when `id` is `None`, else update by id. -/
def save_paddock (db : DB) (p : Paddock) (now : Int) : DB × Paddock :=
  match p.id with
  | none =>
    let p' := {p with id := some db.next_paddock_id,
                      created_at := some now, updated_at := some now}
    ({db with paddocks := db.paddocks ++ [p'],
              next_paddock_id := db.next_paddock_id + 1}, p')
  | some i =>
    let p' := {p with updated_at := some now}
    ({db with paddocks := db.paddocks.map (fun r =>
        if r.id = some i then
          {p with id := r.id, created_at := r.created_at, updated_at := some now}
        else r)}, p')

/-- `Database.get_paddock`. -/
def get_paddock (db : DB) (paddock_id : Nat) : Option Paddock :=
  db.paddocks.find? (fun r => r.id == some paddock_id)

/-- `Database.get_mob`. -/
def get_mob (db : DB) (mob_id : Nat) : Option Mob :=
  db.mobs.find? (fun r => r.id == some mob_id)

/-- `Database.delete_mob`: unconditional `DELETE FROM mobs WHERE id = ?`. -/
def delete_mob (db : DB) (mob_id : Nat) : DB :=
  {db with mobs := db.mobs.filter (fun r => !(r.id == some mob_id))}

/-- `Database.save_animal`: insert when `id` is `None`, else update by id. -/
def save_animal (db : DB) (a : Animal) (now : Int) : DB × Animal :=
  match a.id with
  | none =>
    let a' := {a with id := some db.next_animal_id,
                      created_at := some now, updated_at := some now}
    ({db with animals := db.animals ++ [a'],
              next_animal_id := db.next_animal_id + 1}, a')
  | some i =>
    let a' := {a with updated_at := some now}
    ({db with animals := db.animals.map (fun r =>
        if r.id = some i then
          {a with id := r.id, created_at := r.created_at, updated_at := some now}
        else r)}, a')

/-- `Database.get_animal`. -/
def get_animal (db : DB) (animal_id : Nat) : Option Animal :=
  db.animals.find? (fun r => r.id == some animal_id)

/-- `Database.get_animals_by_mob` (`ORDER BY visual_tag, eid`). -/
def get_animals_by_mob (db : DB) (mob_id : Nat) : List Animal :=
  sortOrd animalTagOrd (db.animals.filter (fun a => a.mob_id == some mob_id))

/-- `Database.search_animals`: `eid LIKE '%q%' OR visual_tag LIKE '%q%'`,
`ORDER BY visual_tag, eid`. -/
def search_animals (db : DB) (query : String) : List Animal :=
  let pat := '%' :: (query.data ++ ['%'])
  sortOrd animalTagOrd (db.animals.filter (fun a =>
    likeMatch pat a.eid.data || likeMatch pat a.visual_tag.data))

/-- `Database.save_product`: insert when `id` is `None`, else update by id. -/
def save_product (db : DB) (p : Product) (now : Int) : DB × Product :=
  match p.id with
  | none =>
    let p' := {p with id := some db.next_product_id,
                      created_at := some now, updated_at := some now}
    ({db with products := db.products ++ [p'],
              next_product_id := db.next_product_id + 1}, p')
  | some i =>
    let p' := {p with updated_at := some now}
    ({db with products := db.products.map (fun r =>
        if r.id = some i then
          {p with id := r.id, created_at := r.created_at, updated_at := some now}
        else r)}, p')

/-- `Database.get_product`. -/
def get_product (db : DB) (product_id : Nat) : Option Product :=
  db.products.find? (fun r => r.id == some product_id)

/-- `Database.save_event`: insert when `id` is `None` (populating `id` and
`created_at`), else update the listed columns by id (`created_at` is not
among them). -/
def save_event (db : DB) (e : Event) (now : Int) : DB × Event :=
  match e.id with
  | none =>
    let e' := {e with id := some db.next_event_id, created_at := some now}
    ({db with events := db.events ++ [e'],
              next_event_id := db.next_event_id + 1}, e')
  | some i =>
    ({db with events := db.events.map (fun r =>
        if r.id = some i then
          {e with id := r.id, created_at := r.created_at}
        else r)}, e)

/-- `Database.save_movement_event`: force the base event's type to
`movement`, save it, then insert or update the detail row (the update
does not touch `event_id`). -/
def save_movement_event (db : DB) (event : Event) (m : MovementEvent) (now : Int) :
    DB × Event × MovementEvent :=
  let res := save_event db {event with event_type := .movement} now
  let db := res.1
  let event := res.2
  match m.id with
  | none =>
    let m' := {m with id := some db.next_movement_id, event_id := event.id}
    ({db with movement_events := db.movement_events ++ [m'],
              next_movement_id := db.next_movement_id + 1}, event, m')
  | some j =>
    ({db with movement_events := db.movement_events.map (fun r =>
        if r.id = some j then {m with id := r.id, event_id := r.event_id} else r)},
     event, m)

/-- `Database.save_treatment_event`: force the base event's type to
`treatment`, save it, then insert or update the detail row (the update
does not touch `event_id`). -/
def save_treatment_event (db : DB) (event : Event) (t : TreatmentEvent) (now : Int) :
    DB × Event × TreatmentEvent :=
  let res := save_event db {event with event_type := .treatment} now
  let db := res.1
  let event := res.2
  match t.id with
  | none =>
    let t' := {t with id := some db.next_treatment_id, event_id := event.id}
    ({db with treatment_events := db.treatment_events ++ [t'],
              next_treatment_id := db.next_treatment_id + 1}, event, t')
  | some j =>
    ({db with treatment_events := db.treatment_events.map (fun r =>
        if r.id = some j then {t with id := r.id, event_id := r.event_id} else r)},
     event, t)

/-- `Database.save_weigh_event`: force the base event's type to `weigh`,
save it, then insert or update the detail row. -/
def save_weigh_event (db : DB) (event : Event) (w : WeighEvent) (now : Int) :
    DB × Event × WeighEvent :=
  let res := save_event db {event with event_type := .weigh} now
  let db := res.1
  let event := res.2
  match w.id with
  | none =>
    let w' := {w with id := some db.next_weigh_id, event_id := event.id}
    ({db with weigh_events := db.weigh_events ++ [w'],
              next_weigh_id := db.next_weigh_id + 1}, event, w')
  | some j =>
    ({db with weigh_events := db.weigh_events.map (fun r =>
        if r.id = some j then {w with id := r.id, event_id := r.event_id} else r)},
     event, w)

/-- `ORDER BY event_date DESC, created_at DESC` (`NULL`s ordered last). -/
def eventRecOrd (e1 e2 : Event) : Bool :=
  decide (e2.event_date < e1.event_date) ||
    (e1.event_date == e2.event_date &&
      match e1.created_at, e2.created_at with
      | some x, some y => decide (y ≤ x)
      | some _, none => true
      | none, some _ => false
      | none, none => true)

/-- `Database.get_recent_events`: newest `limit` events. -/
def get_recent_events (db : DB) (limit : Nat) : List Event :=
  (sortOrd eventRecOrd db.events).take limit

/-- `Database.get_treatment_details`: first row with the given event id. -/
def get_treatment_details (db : DB) (event_id : Nat) : Option TreatmentEvent :=
  db.treatment_events.find? (fun r => r.event_id == some event_id)

/-- `Database.get_movement_details`. -/
def get_movement_details (db : DB) (event_id : Nat) : Option MovementEvent :=
  db.movement_events.find? (fun r => r.event_id == some event_id)

/-- `Database.get_weigh_details`. -/
def get_weigh_details (db : DB) (event_id : Nat) : Option WeighEvent :=
  db.weigh_events.find? (fun r => r.event_id == some event_id)

/-- One result row of `Database.get_animals_on_whp`. -/
structure WhpRow where
  animal_id : Option Nat
  eid : String
  visual_tag : String
  event_id : Option Nat
  event_date : Int
  meat_whp_end : Option Int
  milk_whp_end : Option Int
  esi_end : Option Int
  product_name : Option String
deriving DecidableEq

/-- One treatment row of the `get_animals_on_whp` join: inner joins on
`events` and `animals` (a `NULL` key matches nothing), a left join on
`products`, and the `WHERE` filter `a.status = 'alive' AND
(meat_whp_end >= ? OR milk_whp_end >= ? OR esi_end >= ?)`. -/
def whpJoinRow (db : DB) (as_of : Int) (t : TreatmentEvent) : Option WhpRow :=
  match t.event_id with
  | none => none
  | some eid =>
    match db.events.find? (fun e => e.id == some eid) with
    | none => none
    | some e =>
      match e.animal_id with
      | none => none
      | some aid =>
        match db.animals.find? (fun a => a.id == some aid) with
        | none => none
        | some a =>
          if a.status = .alive &&
              (sqlGe t.meat_whp_end as_of || sqlGe t.milk_whp_end as_of ||
                sqlGe t.esi_end as_of) then
            some { animal_id := a.id, eid := a.eid, visual_tag := a.visual_tag,
                   event_id := e.id, event_date := e.event_date,
                   meat_whp_end := t.meat_whp_end, milk_whp_end := t.milk_whp_end,
                   esi_end := t.esi_end,
                   product_name :=
                     match t.product_id with
                     | none => none
                     | some pid => (db.products.find? (fun p => p.id == some pid)).map (·.name) }
          else none

/-- `ORDER BY t.meat_whp_end, a.visual_tag` (`NULL`s ordered first). -/
def whpOrd (r1 r2 : WhpRow) : Bool :=
  (match r1.meat_whp_end, r2.meat_whp_end with
   | none, some _ => true
   | none, none => false
   | some _, none => false
   | some x, some y => decide (x < y)) ||
    (r1.meat_whp_end == r2.meat_whp_end && decide (r1.visual_tag ≤ r2.visual_tag))

/-- `Database.get_animals_on_whp`. -/
def get_animals_on_whp (db : DB) (as_of : Int) : List WhpRow :=
  sortOrd whpOrd (db.treatment_events.filterMap (whpJoinRow db as_of))

/-- `ORDER BY due_date NULLS LAST, created_at` of `get_pending_tasks`. -/
def taskOrd (t1 t2 : Task) : Bool :=
  (match t1.due_date, t2.due_date with
   | some x, some y => decide (x < y)
   | some _, none => true
   | none, _ => false) ||
    (t1.due_date == t2.due_date &&
      match t1.created_at, t2.created_at with
      | none, _ => true
      | some _, none => false
      | some x, some y => decide (x ≤ y))

/-- `Database.get_pending_tasks`: `completed = 0 AND (due_date IS NULL OR
due_date <= today + days_ahead)`, ordered by due date with `NULL`s last.
`date.today()` is the explicit `today` argument. -/
def get_pending_tasks (db : DB) (today : Int) (days_ahead : Int) : List Task :=
  let end_date := today + days_ahead
  sortOrd taskOrd (db.tasks.filter (fun t =>
    !t.completed && (t.due_date == none || sqlLe t.due_date end_date)))

/-! ### UI flows the claims reference -/

/-- `QuickTreatmentDialog._on_accept`: guard on a selected product
(`product_id` truthy), compute the WHP/ESI end dates from the product's
day counts when positive, then save one treatment event per animal.
The dialog's text inputs are the string arguments. -/
def quickTreatmentAccept (db : DB) (product_id : Option Nat) (event_date : Int)
    (animal_ids : List Nat) (batch dose admin notes : String)
    (route : TreatmentRoute) (now : Int) : DB :=
  match product_id with
  | none => db
  | some pid =>
    if pid = 0 then db
    else
      let ends :=
        match get_product db pid with
        | some product =>
          ((if 0 < product.meat_whp_days then some (event_date + product.meat_whp_days) else none),
           (if 0 < product.milk_whp_days then some (event_date + product.milk_whp_days) else none),
           (if 0 < product.esi_days then some (event_date + product.esi_days) else none))
        | none => (none, none, none)
      animal_ids.foldl (fun db aid =>
        let e : Event := {event_date := event_date, animal_id := some aid,
                          notes := notes, recorded_by := admin}
        let t : TreatmentEvent := {product_id := some pid, batch_number := batch,
                                   dose := dose, route := route, administered_by := admin,
                                   meat_whp_end := ends.1, milk_whp_end := ends.2.1,
                                   esi_end := ends.2.2}
        (save_treatment_event db e t now).1) db

/-- `MobsView._on_delete_mob` (confirmed branch): null out the mob
reference of every animal of the mob via `save_animal`, then delete the
mob row. -/
def onDeleteMob (db : DB) (mob_id : Nat) (now : Int) : DB :=
  let db1 := (get_animals_by_mob db mob_id).foldl
    (fun d a => (save_animal d {a with mob_id := none} now).1) db
  delete_mob db1 mob_id

/-- The inner loop of `WeightsView._calculate_adg`: walk the
chronologically sorted `(date, weight)` pairs carrying the previous pair,
and at the first pair whose date equals the current date divide by the
day gap to the previous pair if positive, else yield nothing. -/
def adgLoop (cur : Int) (cw : ℚ) : Option (Int × ℚ) → List (Int × ℚ) → Option ℚ
  | _, [] => none
  | prev, (d, w) :: rest =>
    if d = cur then
      match prev with
      | some (pd, pw) =>
        if 0 < cur - pd then some ((cw - pw) / ((cur - pd : Int) : ℚ)) else none
      | none => none
    else adgLoop cur cw (some (d, w)) rest

/-- `WeightsView._calculate_adg`: no value unless the animal has at least
two tracked weights; otherwise scan the date-sorted weights. -/
def calculate_adg (animal_id : Nat) (current_date : Int) (current_weight : ℚ)
    (animal_weights : List (Nat × List (Int × ℚ))) : Option ℚ :=
  let weights := ((animal_weights.find? (fun p => p.1 == animal_id)).map Prod.snd).getD []
  if weights.length < 2 then none
  else adgLoop current_date current_weight none
    (sortOrd (fun x y => decide (x.1 ≤ y.1)) weights)

/-- One table row of the weights view (presentation-only columns elided). -/
structure WeightRow where
  event_date : Int
  animal_id : Nat
  weight_kg : ℚ
  adg : Option ℚ
deriving DecidableEq

/-- The body of `WeightsView._load_weights` for one weigh event: skip
events without a truthy animal id, an unknown animal, a mob-filter
mismatch, or missing weigh details; otherwise track the weight and emit a
row whose ADG is computed against the weights tracked so far. -/
def loadWeightsStep (db : DB) (mob_filter : Option Nat)
    (acc : List (Nat × List (Int × ℚ)) × List WeightRow) (event : Event) :
    List (Nat × List (Int × ℚ)) × List WeightRow :=
  match event.animal_id with
  | none => acc
  | some aid =>
    if aid = 0 then acc
    else
      match get_animal db aid with
      | none => acc
      | some animal =>
        if (match mob_filter with
            | some m => !(m = 0) && !(animal.mob_id == some m)
            | none => false) then acc
        else
          match event.id with
          | none => acc
          | some eid =>
            match get_weigh_details db eid with
            | none => acc
            | some weigh =>
              let tracked :=
                match acc.1.find? (fun p => p.1 == aid) with
                | none => acc.1 ++ [(aid, [(event.event_date, weigh.weight_kg)])]
                | some _ => acc.1.map (fun p =>
                    if p.1 == aid then (p.1, p.2 ++ [(event.event_date, weigh.weight_kg)]) else p)
              let adg := calculate_adg aid event.event_date weigh.weight_kg tracked
              (tracked, acc.2 ++ [{ event_date := event.event_date, animal_id := aid,
                                    weight_kg := weigh.weight_kg, adg := adg }])

/-- `WeightsView._load_weights`: take the most recent 500 events, keep the
weigh events inside the date range, then process them in that (newest
first) order. -/
def loadWeights (db : DB) (mob_filter : Option Nat) (from_date to_date : Int) :
    List WeightRow :=
  let events := get_recent_events db 500
  let weigh_events := events.filter (fun e =>
    e.event_type == .weigh && decide (from_date ≤ e.event_date) &&
      decide (e.event_date ≤ to_date))
  (weigh_events.foldl (loadWeightsStep db mob_filter) ([], [])).2

/-! ### Helper lemmas -/

theorem save_event_treatments (db : DB) (e : Event) (now : Int) :
    (save_event db e now).1.treatment_events = db.treatment_events := by
  cases h : e.id <;> simp [save_event, h]

theorem save_event_animals (db : DB) (e : Event) (now : Int) :
    (save_event db e now).1.animals = db.animals := by
  cases h : e.id <;> simp [save_event, h]

/-- If `adgLoop` produces a value, the divisor it used was a positive
number of days. -/
theorem adgLoop_some (cur : Int) (cw : ℚ) :
    ∀ (l : List (Int × ℚ)) (prev : Option (Int × ℚ)) (v : ℚ),
      adgLoop cur cw prev l = some v →
      ∃ pd pw, 0 < cur - pd ∧ v = (cw - pw) / ((cur - pd : Int) : ℚ) := by
  intro l
  induction l with
  | nil => intro prev v h; simp [adgLoop] at h
  | cons hd rest ih =>
    intro prev v h
    rcases hd with ⟨d, w⟩
    simp only [adgLoop] at h
    by_cases hdc : d = cur
    · rw [if_pos hdc] at h
      match prev with
      | none => simp at h
      | some (pd, pw) =>
        have h' : (if 0 < cur - pd then some ((cw - pw) / ((cur - pd : Int) : ℚ)) else none)
            = some v := h
        by_cases hpos : 0 < cur - pd
        · rw [if_pos hpos] at h'
          exact ⟨pd, pw, hpos, (Option.some.injEq _ _ ▸ h').symm⟩
        · rw [if_neg hpos] at h'
          simp at h'
    · rw [if_neg hdc] at h
      exact ih (some (d, w)) v h

/-! ### The demonstration stores used by concrete theorems -/

/-- An animal weighed 100 kg on day 0 and 110 kg on day 10 (the C2
scenario): two weigh events with their detail rows. -/
def adgDemoDB : DB :=
  {animals := [{id := some 1, eid := "A1"}],
   events := [{id := some 1, event_type := .weigh, event_date := 0,
               animal_id := some 1, created_at := some 10},
              {id := some 2, event_type := .weigh, event_date := 10,
               animal_id := some 1, created_at := some 20}],
   weigh_events := [{id := some 1, event_id := some 1, weight_kg := 100},
                    {id := some 2, event_id := some 2, weight_kg := 110}],
   next_animal_id := 2, next_event_id := 3, next_weigh_id := 3}

/-! ### Claim theorems -/

/-- C2: the weights view never shows the claimed ADG. For the animal
weighed 100 kg on day 0 and 110 kg on day 10, every row produced by
`_load_weights` (including the second weighing's row) carries no ADG
value, because the events are processed newest-first; yet
`_calculate_adg` itself, fed the chronological history as the
specification describes, does compute exactly 1.0 kg/day. -/
theorem adg_second_weighing_shows_none :
    loadWeights adgDemoDB none (-5) 20 =
      [{event_date := 10, animal_id := 1, weight_kg := 110, adg := none},
       {event_date := 0, animal_id := 1, weight_kg := 100, adg := none}] ∧
    calculate_adg 1 10 110 [(1, [(0, 100), (10, 110)])] = some 1 :=
  ⟨by decide, by norm_num [calculate_adg, adgLoop, sortOrd, insOrd]⟩

/-- C3: a weigh-event pair of the same animal with equal dates yields no
ADG value, and in general whenever `_calculate_adg` returns a value the
day interval it divided by was strictly positive — no division by zero is
ever performed. -/
theorem adg_zero_interval_skipped :
    (∀ (aid : Nat) (d : Int) (w1 w2 : ℚ) (cur : Int) (cw : ℚ),
      calculate_adg aid cur cw [(aid, [(d, w1), (d, w2)])] = none) ∧
    (∀ (aid : Nat) (cur : Int) (cw : ℚ) (aw : List (Nat × List (Int × ℚ))) (v : ℚ),
      calculate_adg aid cur cw aw = some v →
      ∃ pd pw, 0 < cur - pd ∧ v = (cw - pw) / ((cur - pd : Int) : ℚ)) := by
  constructor
  · intro aid d w1 w2 cur cw
    by_cases h : d = cur <;>
      simp [calculate_adg, adgLoop, sortOrd, insOrd, h]
  · intro aid cur cw aw v h
    simp only [calculate_adg] at h
    split at h
    · exact absurd h (by simp)
    · exact adgLoop_some cur cw _ none v h

/-- Witness for C3: instantiating the no-division-by-zero direction at a
concrete computed ADG. -/
theorem adg_zero_interval_skipped_witness :
    ∃ pd pw, 0 < (10 : Int) - pd ∧ (1 : ℚ) = (110 - pw) / (((10 : Int) - pd : Int) : ℚ) :=
  adg_zero_interval_skipped.2 1 10 110 [(1, [(0, 100), (10, 110)])] 1
    (by norm_num [calculate_adg, adgLoop, sortOrd, insOrd])

/-- C4: re-saving a product never touches the `treatment_events` table
(or the `events` table), so the stored WHP/ESI end dates of existing
treatments are unchanged; the stored end dates of a treatment row take
new values only when that treatment row itself is re-saved, and then they
become exactly the values carried by the re-saved treatment. -/
theorem product_update_keeps_stored_whp_ends (db : DB) (p : Product) (now : Int) :
    ((save_product db p now).1.treatment_events = db.treatment_events ∧
      (save_product db p now).1.events = db.events) ∧
    (∀ (e : Event) (t : TreatmentEvent) (now2 : Int) (j : Nat), t.id = some j →
      ∀ r ∈ (save_treatment_event db e t now2).1.treatment_events,
        r.id = some j →
          r.meat_whp_end = t.meat_whp_end ∧ r.milk_whp_end = t.milk_whp_end ∧
            r.esi_end = t.esi_end) := by
  constructor
  · cases h : p.id <;> simp [save_product, h]
  · intro e t now2 j ht r hr hrid
    simp only [save_treatment_event, ht] at hr
    rw [save_event_treatments] at hr
    rcases List.mem_map.mp hr with ⟨r0, _, rfl⟩
    by_cases h0 : r0.id = some j
    · simp [h0]
    · simp only [h0, if_neg] at hrid ⊢
      exact absurd hrid h0

/-- Witness for C4: re-saving the treatment of the one-row demonstration
store rewrites its stored end dates to the re-saved values. -/
theorem product_update_keeps_stored_whp_ends_witness :
    ∀ r ∈ (save_treatment_event
        {treatment_events := [{id := some 1, event_id := some 7, meat_whp_end := some 3}],
         next_treatment_id := 2}
        {} {id := some 1, meat_whp_end := some 9} 5).1.treatment_events,
      r.id = some 1 →
        r.meat_whp_end = (some 9 : Option Int) ∧ r.milk_whp_end = none ∧ r.esi_end = none :=
  fun r hr hid =>
    (product_update_keeps_stored_whp_ends
        {treatment_events := [{id := some 1, event_id := some 7, meat_whp_end := some 3}],
         next_treatment_id := 2} {} 0).2
      {} {id := some 1, meat_whp_end := some 9} 5 1 rfl r hr hid

/-- C5: saving an entity (animal, paddock) with no id inserts a fresh row
with a previously unused id and the creation timestamp populated, growing
the table by one; saving with an id updates in place — the row count and
the stored ids are unchanged, rows with other ids survive untouched, and
the row with the given id takes the saved fields. -/
theorem save_inserts_fresh_or_updates_in_place (db : DB) (a : Animal) (p : Paddock) (now : Int)
    (hwfA : ∀ r ∈ db.animals, ∃ i, r.id = some i ∧ i < db.next_animal_id)
    (hwfP : ∀ r ∈ db.paddocks, ∃ i, r.id = some i ∧ i < db.next_paddock_id) :
    (a.id = none →
      (save_animal db a now).2.id = some db.next_animal_id ∧
      (save_animal db a now).2.created_at = some now ∧
      (∀ r ∈ db.animals, r.id ≠ some db.next_animal_id) ∧
      (save_animal db a now).1.animals = db.animals ++ [(save_animal db a now).2] ∧
      (save_animal db a now).1.animals.length = db.animals.length + 1) ∧
    (∀ i, a.id = some i →
      (save_animal db a now).1.animals.length = db.animals.length ∧
      (save_animal db a now).1.animals.map (·.id) = db.animals.map (·.id) ∧
      (save_animal db a now).2.id = some i ∧
      (∀ r ∈ db.animals, r.id ≠ some i → r ∈ (save_animal db a now).1.animals) ∧
      (∀ r ∈ db.animals, r.id = some i →
        {a with id := r.id, created_at := r.created_at, updated_at := some now} ∈
          (save_animal db a now).1.animals)) ∧
    (p.id = none →
      (save_paddock db p now).2.id = some db.next_paddock_id ∧
      (save_paddock db p now).2.created_at = some now ∧
      (∀ r ∈ db.paddocks, r.id ≠ some db.next_paddock_id) ∧
      (save_paddock db p now).1.paddocks.length = db.paddocks.length + 1) ∧
    (∀ i, p.id = some i →
      (save_paddock db p now).1.paddocks.length = db.paddocks.length ∧
      (save_paddock db p now).1.paddocks.map (·.id) = db.paddocks.map (·.id)) := by
  refine ⟨?_, ?_, ?_, ?_⟩
  · intro h
    refine ⟨by simp [save_animal, h], by simp [save_animal, h], ?_, by simp [save_animal, h], ?_⟩
    · intro r hr
      rcases hwfA r hr with ⟨i, hi, hlt⟩
      rw [hi]
      intro hc
      exact absurd (Option.some.injEq _ _ ▸ hc) (by omega)
    · simp [save_animal, h]
  · intro i h
    refine ⟨by simp [save_animal, h], ?_, by simp [save_animal, h], ?_, ?_⟩
    · simp only [save_animal, h, List.map_map]
      refine List.map_congr_left ?_
      intro r _
      by_cases hid : r.id = some i <;> simp [hid]
    · intro r hr hne
      simp only [save_animal, h]
      have : (if r.id = some i then
          {a with id := r.id, created_at := r.created_at, updated_at := some now} else r) = r :=
        if_neg hne
      exact this ▸ List.mem_map_of_mem _ hr
    · intro r hr heq
      simp only [save_animal, h]
      have : (if r.id = some i then
          {a with id := r.id, created_at := r.created_at, updated_at := some now} else r) =
          {a with id := r.id, created_at := r.created_at, updated_at := some now} :=
        if_pos heq
      exact this ▸ List.mem_map_of_mem _ hr
  · intro h
    refine ⟨by simp [save_paddock, h], by simp [save_paddock, h], ?_, by simp [save_paddock, h]⟩
    intro r hr
    rcases hwfP r hr with ⟨i, hi, hlt⟩
    rw [hi]
    intro hc
    exact absurd (Option.some.injEq _ _ ▸ hc) (by omega)
  · intro i h
    refine ⟨by simp [save_paddock, h], ?_⟩
    simp only [save_paddock, h, List.map_map]
    refine List.map_congr_left ?_
    intro r _
    by_cases hid : r.id = some i <;> simp [hid]

/-- Witness for C5: inserting into the empty store assigns id 1 and the
creation timestamp. -/
theorem save_inserts_fresh_or_updates_in_place_witness :
    (save_animal emptyDB {} 7).2.id = some 1 ∧ (save_animal emptyDB {} 7).2.created_at = some 7 :=
  let h := (save_inserts_fresh_or_updates_in_place emptyDB {} {} 7
    (by intro r hr; simp [emptyDB] at hr) (by intro r hr; simp [emptyDB] at hr)).1 rfl
  ⟨h.1, h.2.1⟩

/-- C10: every single-entity lookup is an explicit `Option` returning
`none` when no row matches its key, and the list queries return the empty
list when nothing matches. -/
theorem lookups_return_none_and_lists_empty (db : DB) (k : Nat) (q : String) :
    ((∀ r ∈ db.paddocks, r.id ≠ some k) → get_paddock db k = none) ∧
    ((∀ r ∈ db.mobs, r.id ≠ some k) → get_mob db k = none) ∧
    ((∀ r ∈ db.animals, r.id ≠ some k) → get_animal db k = none) ∧
    ((∀ r ∈ db.products, r.id ≠ some k) → get_product db k = none) ∧
    ((∀ r ∈ db.treatment_events, r.event_id ≠ some k) → get_treatment_details db k = none) ∧
    ((∀ r ∈ db.movement_events, r.event_id ≠ some k) → get_movement_details db k = none) ∧
    ((∀ r ∈ db.weigh_events, r.event_id ≠ some k) → get_weigh_details db k = none) ∧
    ((∀ r ∈ db.animals, r.mob_id ≠ some k) → get_animals_by_mob db k = []) ∧
    ((∀ r ∈ db.animals,
        likeMatch ('%' :: (q.data ++ ['%'])) r.eid.data = false ∧
        likeMatch ('%' :: (q.data ++ ['%'])) r.visual_tag.data = false) →
      search_animals db q = []) := by
  refine ⟨?_, ?_, ?_, ?_, ?_, ?_, ?_, ?_, ?_⟩
  · intro h
    apply List.find?_eq_none.mpr
    intro r hr
    simp [h r hr]
  · intro h
    apply List.find?_eq_none.mpr
    intro r hr
    simp [h r hr]
  · intro h
    apply List.find?_eq_none.mpr
    intro r hr
    simp [h r hr]
  · intro h
    apply List.find?_eq_none.mpr
    intro r hr
    simp [h r hr]
  · intro h
    apply List.find?_eq_none.mpr
    intro r hr
    simp [h r hr]
  · intro h
    apply List.find?_eq_none.mpr
    intro r hr
    simp [h r hr]
  · intro h
    apply List.find?_eq_none.mpr
    intro r hr
    simp [h r hr]
  · intro h
    have : db.animals.filter (fun a => a.mob_id == some k) = [] := by
      apply List.filter_eq_nil_iff.mpr
      intro r hr
      simp [h r hr]
    simp [get_animals_by_mob, this, sortOrd]
  · intro h
    have : db.animals.filter (fun a =>
        likeMatch ('%' :: (q.data ++ ['%'])) a.eid.data ||
          likeMatch ('%' :: (q.data ++ ['%'])) a.visual_tag.data) = [] := by
      apply List.filter_eq_nil_iff.mpr
      intro r hr
      simp [(h r hr).1, (h r hr).2]
    simp [search_animals, this, sortOrd]

/-- Witness for C10: the lookups on the empty store. -/
theorem lookups_return_none_and_lists_empty_witness :
    get_paddock emptyDB 1 = none ∧ get_animals_by_mob emptyDB 1 = [] :=
  let h := lookups_return_none_and_lists_empty emptyDB 1 ""
  ⟨h.1 (by intro r hr; simp [emptyDB] at hr),
   h.2.2.2.2.2.2.2.1 (by intro r hr; simp [emptyDB] at hr)⟩

theorem sqlGe_true_iff (o : Option Int) (d : Int) :
    sqlGe o d = true ↔ ∃ x, o = some x ∧ d ≤ x := by
  cases o <;> simp [sqlGe]

/-- The base event row inserted by the quick-treatment dialog for one
animal. -/
def qtEvent (db : DB) (aid : Nat) (t : Int) (nt ad : String) (now : Int) : Event :=
  {id := some db.next_event_id, event_type := .treatment, event_date := t,
   animal_id := some aid, mob_id := none, notes := nt, recorded_by := ad,
   created_at := some now}

/-- The treatment detail row inserted by the quick-treatment dialog. -/
def qtTreatment (db : DB) (pid : Nat) (p : Product) (t : Int) (b ds ad : String)
    (rt : TreatmentRoute) : TreatmentEvent :=
  {id := some db.next_treatment_id, event_id := some db.next_event_id,
   product_id := some pid, batch_number := b, dose := ds, route := rt,
   administered_by := ad,
   meat_whp_end := some (t + p.meat_whp_days),
   milk_whp_end := if 0 < p.milk_whp_days then some (t + p.milk_whp_days) else none,
   esi_end := if 0 < p.esi_days then some (t + p.esi_days) else none}

/-- The store state after the quick-treatment dialog records one
treatment for one animal of a product with a positive meat WHP. -/
def qtDB (db : DB) (pid aid : Nat) (p : Product) (t : Int) (b ds ad nt : String)
    (rt : TreatmentRoute) (now : Int) : DB :=
  {db with events := db.events ++ [qtEvent db aid t nt ad now],
           treatment_events := db.treatment_events ++ [qtTreatment db pid p t b ds ad rt],
           next_event_id := db.next_event_id + 1,
           next_treatment_id := db.next_treatment_id + 1}

/-- The WHP-list row produced for the treatment just recorded by the
quick-treatment dialog. -/
def qtWhpRow (db : DB) (pid : Nat) (p : Product) (a : Animal) (t : Int) : WhpRow :=
  {animal_id := a.id,
   eid := a.eid,
   visual_tag := a.visual_tag,
   event_id := some db.next_event_id,
   event_date := t,
   meat_whp_end := some (t + p.meat_whp_days),
   milk_whp_end := if 0 < p.milk_whp_days then some (t + p.milk_whp_days) else none,
   esi_end := if 0 < p.esi_days then some (t + p.esi_days) else none,
   product_name := (db.products.find? (fun pr => pr.id == some pid)).map (·.name)}

/-- C1 (amended): recording a treatment through the quick-treatment
dialog against an alive animal, for a product whose meat WHP is `d > 0`
days, puts the animal on the WHP list for every reference date up to
`t + d`; and it is off the list at `t + d + 1` provided no other
treatment of the animal is still in force then and the product's milk WHP
and ESI day counts do not exceed `d` (a larger milk or ESI window of the
same treatment would keep the animal on the list past the meat WHP). -/
theorem whp_inclusion_and_boundary_exclusion (db : DB) (pid aid : Nat) (p : Product) (a : Animal)
    (t now : Int) (b ds ad nt : String) (rt : TreatmentRoute)
    (hpid : pid ≠ 0)
    (hp : get_product db pid = some p)
    (hd : 0 < p.meat_whp_days)
    (ha : db.animals.find? (fun r => r.id == some aid) = some a)
    (halive : a.status = .alive)
    (hev : ∀ e ∈ db.events, e.id ≠ some db.next_event_id)
    (htr : ∀ t0 ∈ db.treatment_events, t0.event_id ≠ some db.next_event_id) :
    (∀ x, x ≤ t + p.meat_whp_days →
      ∃ r ∈ get_animals_on_whp
          (quickTreatmentAccept db (some pid) t [aid] b ds ad nt rt now) x,
        r.animal_id = some aid) ∧
    (p.milk_whp_days ≤ p.meat_whp_days → p.esi_days ≤ p.meat_whp_days →
      (∀ r ∈ get_animals_on_whp db (t + p.meat_whp_days + 1), r.animal_id ≠ some aid) →
      ∀ r ∈ get_animals_on_whp
          (quickTreatmentAccept db (some pid) t [aid] b ds ad nt rt now)
          (t + p.meat_whp_days + 1),
        r.animal_id ≠ some aid) := by
  have haid : a.id = some aid := by
    have := List.find?_some ha
    simpa using this
  have hfind : db.events.find? (fun e => e.id == some db.next_event_id) = none := by
    apply List.find?_eq_none.mpr
    intro e he
    simp [hev e he]
  have hq : quickTreatmentAccept db (some pid) t [aid] b ds ad nt rt now =
      qtDB db pid aid p t b ds ad nt rt now := by
    simp only [quickTreatmentAccept, hp, if_neg hpid, if_pos hd, List.foldl_cons,
      List.foldl_nil, save_treatment_event, save_event, qtDB, qtEvent, qtTreatment]
  rw [hq]
  have hevents : (qtDB db pid aid p t b ds ad nt rt now).events =
      db.events ++ [qtEvent db aid t nt ad now] := rfl
  have htreats : (qtDB db pid aid p t b ds ad nt rt now).treatment_events =
      db.treatment_events ++ [qtTreatment db pid p t b ds ad rt] := rfl
  have hanimals : (qtDB db pid aid p t b ds ad nt rt now).animals = db.animals := rfl
  have hprods : (qtDB db pid aid p t b ds ad nt rt now).products = db.products := rfl
  constructor
  · intro x hx
    have hrow : whpJoinRow (qtDB db pid aid p t b ds ad nt rt now) x
        (qtTreatment db pid p t b ds ad rt) =
        some (qtWhpRow db pid p a t) := by
      simp only [whpJoinRow, qtTreatment, qtEvent, hevents, hanimals, hprods,
        List.find?_append, hfind, Option.none_or, List.find?_cons_of_pos,
        beq_self_eq_true, ha]
      rw [if_pos]
      · rfl
      · simp [halive, sqlGe, hx]
    refine ⟨qtWhpRow db pid p a t, ?_, haid⟩
    rw [get_animals_on_whp, mem_sortOrd, htreats, List.filterMap_append]
    apply List.mem_append_right
    rw [List.filterMap_cons, hrow]
    exact List.mem_cons_self _ _
  · intro hmilk hesi hother r hr
    rw [get_animals_on_whp, mem_sortOrd, htreats, List.filterMap_append] at hr
    rcases List.mem_append.mp hr with hold | hnew
    · rcases List.mem_filterMap.mp hold with ⟨t0, ht0, heq⟩
      have hstab : whpJoinRow (qtDB db pid aid p t b ds ad nt rt now)
          (t + p.meat_whp_days + 1) t0 = whpJoinRow db (t + p.meat_whp_days + 1) t0 := by
        cases h0 : t0.event_id with
        | none => simp [whpJoinRow, h0]
        | some i =>
          simp only [whpJoinRow, h0, hevents, List.find?_append]
          cases hf : db.events.find? (fun e => e.id == some i) with
          | some e => simp [hf, hanimals, hprods]
          | none =>
            have hne : ((qtEvent db aid t nt ad now).id == some i) = false := by
              have hti := htr t0 ht0
              rw [h0] at hti
              simp only [qtEvent, beq_eq_false_iff_ne, ne_eq, Option.some.injEq]
              intro hcontra
              exact hti (by rw [hcontra])
            simp [hf, hne]
      rw [hstab] at heq
      have hmem : r ∈ get_animals_on_whp db (t + p.meat_whp_days + 1) := by
        rw [get_animals_on_whp, mem_sortOrd]
        exact List.mem_filterMap.mpr ⟨t0, ht0, heq⟩
      exact hother r hmem
    · exfalso
      have hnone : whpJoinRow (qtDB db pid aid p t b ds ad nt rt now)
          (t + p.meat_whp_days + 1) (qtTreatment db pid p t b ds ad rt) = none := by
        simp only [whpJoinRow, qtTreatment, qtEvent, hevents, hanimals, hprods,
          List.find?_append, hfind, Option.none_or, List.find?_cons_of_pos,
          beq_self_eq_true, ha]
        rw [if_neg]
        intro hcond
        rcases (Bool.and_eq_true ..).mp hcond with ⟨_, hor⟩
        rcases (Bool.or_eq_true ..).mp hor with h12 | h3
        · rcases (Bool.or_eq_true ..).mp h12 with h1 | h2
          · rcases (sqlGe_true_iff _ _).mp h1 with ⟨x, hx, hle⟩
            simp only [Option.some.injEq] at hx
            omega
          · rcases (sqlGe_true_iff _ _).mp h2 with ⟨x, hx, hle⟩
            by_cases hm : 0 < p.milk_whp_days
            · rw [if_pos hm] at hx
              simp only [Option.some.injEq] at hx
              omega
            · rw [if_neg hm] at hx
              simp at hx
        · rcases (sqlGe_true_iff _ _).mp h3 with ⟨x, hx, hle⟩
          by_cases he : 0 < p.esi_days
          · rw [if_pos he] at hx
            simp only [Option.some.injEq] at hx
            omega
          · rw [if_neg he] at hx
            simp at hx
      rw [List.filterMap_cons, hnone, List.filterMap_nil] at hnew
      exact absurd hnew (List.not_mem_nil r)

theorem save_event_movements (db : DB) (e : Event) (now : Int) :
    (save_event db e now).1.movement_events = db.movement_events := by
  cases h : e.id <;> simp [save_event, h]

theorem save_event_weighs (db : DB) (e : Event) (now : Int) :
    (save_event db e now).1.weigh_events = db.weigh_events := by
  cases h : e.id <;> simp [save_event, h]

theorem save_event_snd_type (db : DB) (x : Event) (now : Int) :
    (save_event db x now).2.event_type = x.event_type := by
  cases h : x.id <;> simp [save_event, h]

/-- A store state instrumented with the ghost history of which event ids
were recorded through each typed save operation. -/
structure TraceDB where
  db : DB
  rec_movement : List Nat := []
  rec_treatment : List Nat := []
  rec_weigh : List Nat := []
deriving DecidableEq

/-- The event-recording operations of the persistence layer. -/
inductive DbOp
  | opSaveEvent (e : Event) (now : Int)
  | opSaveMovement (e : Event) (m : MovementEvent) (now : Int)
  | opSaveTreatment (e : Event) (t : TreatmentEvent) (now : Int)
  | opSaveWeigh (e : Event) (w : WeighEvent) (now : Int)
deriving DecidableEq

/-- Log the id of the base event a typed save just wrote. -/
def pushRec (o : Option Nat) (l : List Nat) : List Nat :=
  match o with
  | some n => n :: l
  | none => l

/-- One step: run the operation on the store and, for typed saves, log
the id of the base event written. -/
def stepOp (s : TraceDB) : DbOp → TraceDB
  | .opSaveEvent e now => {s with db := (save_event s.db e now).1}
  | .opSaveMovement e m now =>
    let r := save_movement_event s.db e m now
    {s with db := r.1, rec_movement := pushRec r.2.1.id s.rec_movement}
  | .opSaveTreatment e t now =>
    let r := save_treatment_event s.db e t now
    {s with db := r.1, rec_treatment := pushRec r.2.1.id s.rec_treatment}
  | .opSaveWeigh e w now =>
    let r := save_weigh_event s.db e w now
    {s with db := r.1, rec_weigh := pushRec r.2.1.id s.rec_weigh}

/-- Run a sequence of recording operations from the empty store. -/
def execTrace (ops : List DbOp) : TraceDB :=
  ops.foldl stepOp {db := emptyDB}

/-- The call pattern every caller in the repository uses for the typed
saves: a fresh base event and a fresh detail record. -/
def FreshTyped : DbOp → Prop
  | .opSaveEvent _ _ => True
  | .opSaveMovement e m _ => e.id = none ∧ m.id = none
  | .opSaveTreatment e t _ => e.id = none ∧ t.id = none
  | .opSaveWeigh e w _ => e.id = none ∧ w.id = none

/-- The ghost logs hold exactly the event ids that have a detail row of
the corresponding subtype. -/
def GhostInv (s : TraceDB) : Prop :=
  (∀ n, n ∈ s.rec_movement ↔ ∃ m ∈ s.db.movement_events, m.event_id = some n) ∧
  (∀ n, n ∈ s.rec_treatment ↔ ∃ t ∈ s.db.treatment_events, t.event_id = some n) ∧
  (∀ n, n ∈ s.rec_weigh ↔ ∃ w ∈ s.db.weigh_events, w.event_id = some n)

theorem save_treatment_insert_shape (db : DB) (e : Event) (t : TreatmentEvent) (now : Int)
    (he : e.id = none) (ht : t.id = none) :
    (save_treatment_event db e t now).1.treatment_events =
      db.treatment_events ++
        [{t with id := some db.next_treatment_id, event_id := some db.next_event_id}] ∧
    (save_treatment_event db e t now).2.1.id = some db.next_event_id ∧
    (save_treatment_event db e t now).1.movement_events = db.movement_events ∧
    (save_treatment_event db e t now).1.weigh_events = db.weigh_events := by
  rw [save_treatment_event]
  rw [show ({e with event_type := EventType.treatment} : Event).id = e.id from rfl]
  simp [save_event, he, ht]

theorem save_movement_insert_shape (db : DB) (e : Event) (m : MovementEvent) (now : Int)
    (he : e.id = none) (hm : m.id = none) :
    (save_movement_event db e m now).1.movement_events =
      db.movement_events ++
        [{m with id := some db.next_movement_id, event_id := some db.next_event_id}] ∧
    (save_movement_event db e m now).2.1.id = some db.next_event_id ∧
    (save_movement_event db e m now).1.treatment_events = db.treatment_events ∧
    (save_movement_event db e m now).1.weigh_events = db.weigh_events := by
  rw [save_movement_event]
  rw [show ({e with event_type := EventType.movement} : Event).id = e.id from rfl]
  simp [save_event, he, hm]

theorem save_weigh_insert_shape (db : DB) (e : Event) (w : WeighEvent) (now : Int)
    (he : e.id = none) (hw : w.id = none) :
    (save_weigh_event db e w now).1.weigh_events =
      db.weigh_events ++
        [{w with id := some db.next_weigh_id, event_id := some db.next_event_id}] ∧
    (save_weigh_event db e w now).2.1.id = some db.next_event_id ∧
    (save_weigh_event db e w now).1.treatment_events = db.treatment_events ∧
    (save_weigh_event db e w now).1.movement_events = db.movement_events := by
  rw [save_weigh_event]
  rw [show ({e with event_type := EventType.weigh} : Event).id = e.id from rfl]
  simp [save_event, he, hw]

theorem stepOp_ghostInv (s : TraceDB) (op : DbOp) (hf : FreshTyped op) (hs : GhostInv s) :
    GhostInv (stepOp s op) := by
  cases op with
  | opSaveEvent e now =>
    refine ⟨?_, ?_, ?_⟩ <;> intro n
    · rw [show (stepOp s (.opSaveEvent e now)).db.movement_events =
        s.db.movement_events from save_event_movements s.db e now]
      exact hs.1 n
    · rw [show (stepOp s (.opSaveEvent e now)).db.treatment_events =
        s.db.treatment_events from save_event_treatments s.db e now]
      exact hs.2.1 n
    · rw [show (stepOp s (.opSaveEvent e now)).db.weigh_events =
        s.db.weigh_events from save_event_weighs s.db e now]
      exact hs.2.2 n
  | opSaveMovement e m now =>
    rcases hf with ⟨he, hm⟩
    have hshape := save_movement_insert_shape s.db e m now he hm
    refine ⟨?_, ?_, ?_⟩ <;> intro n
    · rw [show (stepOp s (.opSaveMovement e m now)).rec_movement =
        pushRec (save_movement_event s.db e m now).2.1.id s.rec_movement from rfl]
      rw [hshape.2.1, pushRec]
      rw [show (stepOp s (.opSaveMovement e m now)).db.movement_events =
        (save_movement_event s.db e m now).1.movement_events from rfl, hshape.1]
      simp only [List.mem_cons, List.mem_append, List.mem_singleton, List.not_mem_nil,
        or_false]
      constructor
      · rintro (rfl | hn)
        · exact ⟨_, Or.inr rfl, rfl⟩
        · rcases (hs.1 n).mp hn with ⟨x, hx, hxe⟩
          exact ⟨x, Or.inl hx, hxe⟩
      · rintro ⟨x, hx | rfl, hxe⟩
        · exact Or.inr ((hs.1 n).mpr ⟨x, hx, hxe⟩)
        · left
          have : some s.db.next_event_id = some n := hxe
          exact (Option.some.injEq .. ▸ this).symm
    · rw [show (stepOp s (.opSaveMovement e m now)).db.treatment_events =
        (save_movement_event s.db e m now).1.treatment_events from rfl, hshape.2.2.1]
      exact hs.2.1 n
    · rw [show (stepOp s (.opSaveMovement e m now)).db.weigh_events =
        (save_movement_event s.db e m now).1.weigh_events from rfl, hshape.2.2.2]
      exact hs.2.2 n
  | opSaveTreatment e t now =>
    rcases hf with ⟨he, ht⟩
    have hshape := save_treatment_insert_shape s.db e t now he ht
    refine ⟨?_, ?_, ?_⟩ <;> intro n
    · rw [show (stepOp s (.opSaveTreatment e t now)).db.movement_events =
        (save_treatment_event s.db e t now).1.movement_events from rfl, hshape.2.2.1]
      exact hs.1 n
    · rw [show (stepOp s (.opSaveTreatment e t now)).rec_treatment =
        pushRec (save_treatment_event s.db e t now).2.1.id s.rec_treatment from rfl]
      rw [hshape.2.1, pushRec]
      rw [show (stepOp s (.opSaveTreatment e t now)).db.treatment_events =
        (save_treatment_event s.db e t now).1.treatment_events from rfl, hshape.1]
      simp only [List.mem_cons, List.mem_append, List.mem_singleton, List.not_mem_nil,
        or_false]
      constructor
      · rintro (rfl | hn)
        · exact ⟨_, Or.inr rfl, rfl⟩
        · rcases (hs.2.1 n).mp hn with ⟨x, hx, hxe⟩
          exact ⟨x, Or.inl hx, hxe⟩
      · rintro ⟨x, hx | rfl, hxe⟩
        · exact Or.inr ((hs.2.1 n).mpr ⟨x, hx, hxe⟩)
        · left
          have : some s.db.next_event_id = some n := hxe
          exact (Option.some.injEq .. ▸ this).symm
    · rw [show (stepOp s (.opSaveTreatment e t now)).db.weigh_events =
        (save_treatment_event s.db e t now).1.weigh_events from rfl, hshape.2.2.2]
      exact hs.2.2 n
  | opSaveWeigh e w now =>
    rcases hf with ⟨he, hw⟩
    have hshape := save_weigh_insert_shape s.db e w now he hw
    refine ⟨?_, ?_, ?_⟩ <;> intro n
    · rw [show (stepOp s (.opSaveWeigh e w now)).db.movement_events =
        (save_weigh_event s.db e w now).1.movement_events from rfl, hshape.2.2.2]
      exact hs.1 n
    · rw [show (stepOp s (.opSaveWeigh e w now)).db.treatment_events =
        (save_weigh_event s.db e w now).1.treatment_events from rfl, hshape.2.2.1]
      exact hs.2.1 n
    · rw [show (stepOp s (.opSaveWeigh e w now)).rec_weigh =
        pushRec (save_weigh_event s.db e w now).2.1.id s.rec_weigh from rfl]
      rw [hshape.2.1, pushRec]
      rw [show (stepOp s (.opSaveWeigh e w now)).db.weigh_events =
        (save_weigh_event s.db e w now).1.weigh_events from rfl, hshape.1]
      simp only [List.mem_cons, List.mem_append, List.mem_singleton, List.not_mem_nil,
        or_false]
      constructor
      · rintro (rfl | hn)
        · exact ⟨_, Or.inr rfl, rfl⟩
        · rcases (hs.2.2 n).mp hn with ⟨x, hx, hxe⟩
          exact ⟨x, Or.inl hx, hxe⟩
      · rintro ⟨x, hx | rfl, hxe⟩
        · exact Or.inr ((hs.2.2 n).mpr ⟨x, hx, hxe⟩)
        · left
          have : some s.db.next_event_id = some n := hxe
          exact (Option.some.injEq .. ▸ this).symm

theorem execTrace_ghostInv (ops : List DbOp) (hf : ∀ op ∈ ops, FreshTyped op) :
    GhostInv (execTrace ops) := by
  have hgen : ∀ (l : List DbOp) (s : TraceDB), (∀ op ∈ l, FreshTyped op) → GhostInv s →
      GhostInv (l.foldl stepOp s) := by
    intro l
    induction l with
    | nil => intro s _ hs; exact hs
    | cons op l ih =>
      intro s h hs
      rw [List.foldl_cons]
      exact ih _ (fun x hx => h x (List.mem_cons_of_mem op hx))
        (stepOp_ghostInv s op (h op (List.mem_cons_self op l)) hs)
  refine hgen ops {db := emptyDB} hf ?_
  refine ⟨?_, ?_, ?_⟩ <;> intro n <;> simp [emptyDB]

/-- C9 (amended): under any sequence of event-recording operations in
which every typed save is invoked in the insert pattern used by every
caller in the repository (fresh base event, fresh detail record), an
event of type movement/treatment/weigh in the resulting store has its
subtype detail row iff its id was recorded through the corresponding
typed save operation; moreover the typed saves always force the base
event's type to the subtype they attach. -/
theorem typed_event_detail_iff_recorded (ops : List DbOp)
    (hf : ∀ op ∈ ops, FreshTyped op) :
    (∀ e ∈ (execTrace ops).db.events, ∀ i, e.id = some i →
      (e.event_type = .movement →
        ((∃ m ∈ (execTrace ops).db.movement_events, m.event_id = some i) ↔
          i ∈ (execTrace ops).rec_movement)) ∧
      (e.event_type = .treatment →
        ((∃ t ∈ (execTrace ops).db.treatment_events, t.event_id = some i) ↔
          i ∈ (execTrace ops).rec_treatment)) ∧
      (e.event_type = .weigh →
        ((∃ w ∈ (execTrace ops).db.weigh_events, w.event_id = some i) ↔
          i ∈ (execTrace ops).rec_weigh))) ∧
    (∀ (db : DB) (e : Event) (m : MovementEvent) (now : Int),
      (save_movement_event db e m now).2.1.event_type = .movement) ∧
    (∀ (db : DB) (e : Event) (t : TreatmentEvent) (now : Int),
      (save_treatment_event db e t now).2.1.event_type = .treatment) ∧
    (∀ (db : DB) (e : Event) (w : WeighEvent) (now : Int),
      (save_weigh_event db e w now).2.1.event_type = .weigh) := by
  have hinv := execTrace_ghostInv ops hf
  refine ⟨?_, ?_, ?_, ?_⟩
  · intro e _ i _
    exact ⟨fun _ => (hinv.1 i).symm, fun _ => (hinv.2.1 i).symm, fun _ => (hinv.2.2 i).symm⟩
  · intro db e m now
    cases hm : m.id <;>
      simp [save_movement_event, hm, save_event_snd_type]
  · intro db e t now
    cases ht : t.id <;>
      simp [save_treatment_event, ht, save_event_snd_type]
  · intro db e w now
    cases hw : w.id <;>
      simp [save_weigh_event, hw, save_event_snd_type]

/-- Witness for C9: a single properly-made quick-treatment recording on
the empty store yields the treatment event with its detail row and its id
logged. -/
theorem typed_event_detail_iff_recorded_witness :
    (∃ t ∈ (execTrace [.opSaveTreatment {} {} 0]).db.treatment_events,
        t.event_id = some 1) ↔
      1 ∈ (execTrace [.opSaveTreatment {} {} 0]).rec_treatment := by
  have h := (typed_event_detail_iff_recorded [.opSaveTreatment {} {} 0]
    (by intro op hop; rcases List.mem_singleton.mp hop with rfl; exact ⟨rfl, rfl⟩)).1
  exact (h {id := some 1, event_type := .treatment, event_date := 0,
            animal_id := none, mob_id := none, notes := "", recorded_by := "",
            created_at := some 0}
    (by decide) 1 rfl).2.1 rfl

/-- C9 counterexample: one reachable persistence call —
`save_treatment_event` with a fresh base event but a detail record
carrying a dangling id — produces a treatment-typed event that was
recorded through the typed save yet has no detail row (the detail UPDATE
matched nothing), so the claimed equivalence fails on a reachable state. -/
theorem typed_event_detail_counterexample :
    ¬ (∀ e ∈ (execTrace [.opSaveTreatment {} {id := some 1} 0]).db.events,
        ∀ i, e.id = some i →
          (e.event_type = .treatment →
            ((∃ t ∈ (execTrace [.opSaveTreatment {} {id := some 1} 0]).db.treatment_events,
                t.event_id = some i) ↔
              i ∈ (execTrace [.opSaveTreatment {} {id := some 1} 0]).rec_treatment))) := by
  decide

/-- The per-row effect of one `save_animal` call of the mob-deletion
loop: write the fetched animal back with its mob reference nulled. -/
def nullMobWriteback (now : Int) (a r : Animal) : Animal :=
  if r.id = a.id then
    {a with mob_id := none, id := r.id, created_at := r.created_at, updated_at := some now}
  else r

/-- The cumulative per-row effect of the whole mob-deletion loop. -/
def nullMobFold (now : Int) (l : List Animal) (r : Animal) : Animal :=
  l.foldl (fun r a => nullMobWriteback now a r) r

theorem nullMobFold_not_mem (now : Int) (l : List Animal) (r : Animal)
    (h : ∀ a ∈ l, a.id ≠ r.id) : nullMobFold now l r = r := by
  induction l with
  | nil => rfl
  | cons a l ih =>
    rw [nullMobFold, List.foldl_cons]
    rw [show nullMobWriteback now a r = r from
      if_neg (fun hc => (h a (List.mem_cons_self a l)) hc.symm)]
    exact ih (fun x hx => h x (List.mem_cons_of_mem a hx))

theorem nullMobFold_mem (now : Int) (l1 l2 : List Animal) (r : Animal)
    (h1 : ∀ a ∈ l1, a.id ≠ r.id) (h2 : ∀ a ∈ l2, a.id ≠ r.id) :
    nullMobFold now (l1 ++ r :: l2) r = {r with mob_id := none, updated_at := some now} := by
  rw [nullMobFold, List.foldl_append]
  rw [show List.foldl (fun r a => nullMobWriteback now a r) r l1 = r from
    nullMobFold_not_mem now l1 r h1]
  rw [List.foldl_cons]
  rw [show nullMobWriteback now r r =
    {r with mob_id := none, updated_at := some now} from by
      rw [nullMobWriteback, if_pos rfl]]
  exact nullMobFold_not_mem now l2 _ (fun x hx => h2 x hx)

/-- Replace the animals table of a store, leaving the rest alone. -/
def updAnimals (d : DB) (f : Animal → Animal) : DB := {d with animals := d.animals.map f}

theorem save_animal_update_shape (d : DB) (x : Animal) (now : Int) (i : Nat)
    (hx : x.id = some i) :
    (save_animal d x now).1 = updAnimals d (fun r =>
      if r.id = some i then {x with id := r.id, created_at := r.created_at, updated_at := some now} else r) := by
  simp only [save_animal, hx, updAnimals]

theorem deleteMob_fold_shape (now : Int) :
    ∀ (l : List Animal) (d : DB), (∀ a ∈ l, a.id ≠ none) →
      ((l.foldl (fun d a => (save_animal d {a with mob_id := none} now).1) d).animals =
        d.animals.map (nullMobFold now l)) ∧
      ((l.foldl (fun d a => (save_animal d {a with mob_id := none} now).1) d).mobs =
        d.mobs) := by
  intro l
  induction l with
  | nil =>
    intro d _
    rw [List.foldl_nil]
    rw [show nullMobFold now [] = fun r => r from rfl]
    exact ⟨(List.map_id' d.animals).symm, rfl⟩
  | cons a l ih =>
    intro d h
    obtain ⟨i, hai⟩ := Option.ne_none_iff_exists'.mp (h a (List.mem_cons_self a l))
    have hstep := save_animal_update_shape d {a with mob_id := none} now i hai
    have hfn : (fun r : Animal =>
        if r.id = some i then {({a with mob_id := none} : Animal) with id := r.id, created_at := r.created_at, updated_at := some now} else r) =
        nullMobWriteback now a := by
      funext r
      rw [nullMobWriteback, hai]
    rw [List.foldl_cons, hstep, hfn]
    have hrest := ih (updAnimals d (nullMobWriteback now a))
      (fun x hx => h x (List.mem_cons_of_mem a hx))
    refine ⟨?_, hrest.2⟩
    rw [hrest.1]
    rw [show (updAnimals d (nullMobWriteback now a)).animals =
      d.animals.map (nullMobWriteback now a) from rfl]
    rw [List.map_map]
    rfl

/-- C8 (amended): the documented mob-deletion flow keeps every animal row
— the table's length and every row with a different mob are unchanged;
each animal of the deleted mob survives with its mob reference set to
null (and, inherent to `save_animal`, a refreshed `updated_at`
timestamp), all other fields untouched; and the mob row itself is
removed. -/
theorem delete_mob_preserves_animals (db : DB) (mid : Nat) (now : Int)
    (hids : ∀ r ∈ db.animals, r.id ≠ none)
    (hnodup : (db.animals.map (·.id)).Nodup) :
    (onDeleteMob db mid now).animals =
      db.animals.map (fun r =>
        if r.mob_id = some mid then {r with mob_id := none, updated_at := some now}
        else r) ∧
    (onDeleteMob db mid now).mobs = db.mobs.filter (fun m => !(m.id == some mid)) ∧
    (onDeleteMob db mid now).animals.length = db.animals.length := by
  have hperm : List.Perm (get_animals_by_mob db mid)
      (db.animals.filter (fun a => a.mob_id == some mid)) :=
    perm_sortOrd _ _
  have hfetchmem : ∀ a ∈ get_animals_by_mob db mid,
      a ∈ db.animals ∧ a.mob_id = some mid := by
    intro a haf
    have := List.mem_filter.mp (hperm.mem_iff.mp haf)
    exact ⟨this.1, by simpa using this.2⟩
  have hallids : ∀ a ∈ get_animals_by_mob db mid, a.id ≠ none :=
    fun a haf => hids a (hfetchmem a haf).1
  have hshape := deleteMob_fold_shape now (get_animals_by_mob db mid) db hallids
  have hnodupF : ((get_animals_by_mob db mid).map (·.id)).Nodup := by
    refine (List.Perm.nodup_iff (List.Perm.map _ hperm)).mpr ?_
    exact List.Nodup.sublist (List.Sublist.map _ (List.filter_sublist _)) hnodup
  have hinj : ∀ x ∈ db.animals, ∀ y ∈ db.animals, x.id = y.id → x = y := by
    intro x hx y hy hxy
    exact List.inj_on_of_nodup_map hnodup hx hy hxy
  have hpoint : ∀ r ∈ db.animals, nullMobFold now (get_animals_by_mob db mid) r =
      (if r.mob_id = some mid then {r with mob_id := none, updated_at := some now}
       else r) := by
    intro r hrm
    by_cases hm : r.mob_id = some mid
    · rw [if_pos hm]
      have hrf : r ∈ get_animals_by_mob db mid := by
        rw [hperm.mem_iff, List.mem_filter]
        exact ⟨hrm, by simp [hm]⟩
      obtain ⟨l1, l2, hsplit⟩ := List.append_of_mem hrf
      have hnd : ((l1 ++ r :: l2).map (·.id)).Nodup := by rw [← hsplit]; exact hnodupF
      rw [List.map_append, List.map_cons] at hnd
      have hmid := List.nodup_middle.mp hnd
      rcases List.nodup_cons.mp hmid with ⟨hnotin, _⟩
      rw [hsplit]
      apply nullMobFold_mem
      · intro x hx hc
        exact hnotin (List.mem_append_left _ (hc ▸ List.mem_map_of_mem (·.id) hx))
      · intro x hx hc
        exact hnotin (List.mem_append_right _ (hc ▸ List.mem_map_of_mem (·.id) hx))
    · rw [if_neg hm]
      apply nullMobFold_not_mem
      intro a haf hc
      have hp := hfetchmem a haf
      have : a = r := hinj a hp.1 r hrm hc
      exact hm (this ▸ hp.2)
  have hanimals : (onDeleteMob db mid now).animals =
      db.animals.map (nullMobFold now (get_animals_by_mob db mid)) := by
    rw [onDeleteMob]
    exact hshape.1
  refine ⟨?_, ?_, ?_⟩
  · rw [hanimals]
    exact List.map_congr_left hpoint
  · rw [onDeleteMob]
    rw [show ∀ d : DB, (delete_mob d mid).mobs = d.mobs.filter (fun m => !(m.id == some mid))
      from fun d => rfl]
    rw [hshape.2]
  · rw [hanimals, List.length_map]

/-- The animal of the C8 counterexample store, last updated at time 5. -/
def delMobAnimal : Animal := {id := some 1, mob_id := some 1, updated_at := some 5}

/-- The C8 counterexample store: one mob with one assigned animal. -/
def delMobDB : DB :=
  {mobs := [{id := some 1, name := "M"}], animals := [delMobAnimal],
   next_mob_id := 2, next_animal_id := 2}

/-- C8 counterexample: deleting the mob through the dialog flow does keep
the animal and null its mob reference, but `updated_at` — a field other
than the mob reference — changes from 5 to the save time 7, so not every
other field is unchanged. -/
theorem delete_mob_updates_timestamp_counterexample :
    (onDeleteMob delMobDB 1 7).animals.map (·.mob_id) = [none] ∧
    (onDeleteMob delMobDB 1 7).animals.map (·.updated_at) = [some 7] ∧
    delMobDB.animals.map (·.updated_at) = [some 5] :=
  ⟨by decide, by decide, rfl⟩

/-- Witness for C8: the amended description evaluated on the
counterexample store. -/
theorem delete_mob_preserves_animals_witness :
    (onDeleteMob delMobDB 1 7).animals =
      [{delMobAnimal with mob_id := none, updated_at := some 7}] ∧
    (onDeleteMob delMobDB 1 7).mobs = [] := by
  have h := delete_mob_preserves_animals delMobDB 1 7 (by decide) (by decide)
  refine ⟨?_, ?_⟩
  · rw [h.1]; decide
  · rw [h.2.1]; decide

/-- The product of the C1 witness store: a 28-day meat WHP, as in the
specification's end-to-end scenario. -/
def whpWitnessProduct : Product := {id := some 1, name := "Drench", meat_whp_days := 28}

/-- The alive animal of the C1 witness store. -/
def whpWitnessAnimal : Animal := {id := some 1, status := .alive}

/-- The C1 witness store: one alive animal and one 28-day-meat-WHP
product, no events yet. -/
def whpWitnessDB : DB :=
  {animals := [whpWitnessAnimal], products := [whpWitnessProduct],
   next_animal_id := 2, next_product_id := 2}

/-- Witness for C1: treating on day 10 with the 28-day product keeps the
animal on the WHP list at the boundary date 38. -/
theorem whp_inclusion_and_boundary_exclusion_witness :
    ∃ r ∈ get_animals_on_whp
        (quickTreatmentAccept whpWitnessDB (some 1) 10 [1] "" "" "" "" .oral 100) 38,
      r.animal_id = some 1 :=
  (whp_inclusion_and_boundary_exclusion whpWitnessDB 1 1 whpWitnessProduct whpWitnessAnimal
      10 100 "" "" "" "" .oral (by decide) (by decide) (by decide) (by decide) (by decide)
      (by intro e he; simp [whpWitnessDB] at he)
      (by intro t0 ht0; simp [whpWitnessDB] at ht0)).1 38 (by decide)

/-- The product of the C1 counterexample: meat WHP of 1 day but milk WHP
of 10 days. -/
def whpCexProduct : Product :=
  {id := some 1, name := "P", meat_whp_days := 1, milk_whp_days := 10}

/-- The C1 counterexample store: one alive animal, the product above, and
no treatment recorded yet. -/
def whpCexDB : DB :=
  {animals := [{id := some 1, status := .alive}], products := [whpCexProduct],
   next_animal_id := 2, next_product_id := 2}

/-- C1 counterexample: the claim's premises hold — `meat_whp_days = d = 1
> 0`, a treatment is recorded at `t = 0` against the alive animal, and no
other treatment of the animal exists (the store held no treatments at
all) — yet `get_animals_on_whp (t + d + 1) = get_animals_on_whp 2` still
lists the animal, because the same treatment's 10-day milk WHP is still
in force. -/
theorem whp_exclusion_counterexample :
    whpCexDB.treatment_events = [] ∧
    whpCexProduct.meat_whp_days = 1 ∧
    (get_animals_on_whp
        (quickTreatmentAccept whpCexDB (some 1) 0 [1] "" "" "" "" .oral 100)
        2).map (·.animal_id) = [some 1] :=
  ⟨rfl, rfl, by decide⟩

theorem taskOrd_total (t1 t2 : Task) : taskOrd t1 t2 = true ∨ taskOrd t2 t1 = true := by
  unfold taskOrd
  rcases h1 : t1.due_date with _ | x <;> rcases h2 : t2.due_date with _ | y <;>
    rcases c1 : t1.created_at with _ | cx <;> rcases c2 : t2.created_at with _ | cy <;>
      simp <;> omega

theorem taskOrd_trans (t1 t2 t3 : Task) :
    taskOrd t1 t2 = true → taskOrd t2 t3 = true → taskOrd t1 t3 = true := by
  unfold taskOrd
  rcases h1 : t1.due_date with _ | x <;> rcases h2 : t2.due_date with _ | y <;>
    rcases h3 : t3.due_date with _ | z <;>
    rcases c1 : t1.created_at with _ | cx <;> rcases c2 : t2.created_at with _ | cy <;>
      rcases c3 : t3.created_at with _ | cz <;>
        simp <;> omega

/-- C7: `get_pending_tasks` returns exactly (a permutation characterised
below) the incomplete tasks with no due date or a due date at most
`days_ahead` days after today, ordered by due date with the dateless
tasks last. -/
theorem pending_tasks_window_and_order (db : DB) (today days_ahead : Int) :
    List.Perm (get_pending_tasks db today days_ahead)
      (db.tasks.filter (fun t =>
        !t.completed && (t.due_date == none || sqlLe t.due_date (today + days_ahead)))) ∧
    (∀ t, t ∈ get_pending_tasks db today days_ahead ↔
      t ∈ db.tasks ∧ t.completed = false ∧
        (t.due_date = none ∨ ∃ x, t.due_date = some x ∧ x ≤ today + days_ahead)) ∧
    (get_pending_tasks db today days_ahead).Pairwise (fun t1 t2 =>
      (t1.due_date = none → t2.due_date = none) ∧
      (∀ x y, t1.due_date = some x → t2.due_date = some y → x ≤ y)) := by
  refine ⟨perm_sortOrd _ _, ?_, ?_⟩
  · intro t
    rw [get_pending_tasks, mem_sortOrd, List.mem_filter]
    constructor
    · rintro ⟨hm, hp⟩
      refine ⟨hm, ?_, ?_⟩
      · rcases Bool.and_eq_true .. |>.mp hp with ⟨hc, _⟩
        simpa using hc
      · rcases Bool.and_eq_true .. |>.mp hp with ⟨_, hd⟩
        rcases Bool.or_eq_true .. |>.mp hd with hn | hle
        · left; simpa using hn
        · rcases h : t.due_date with _ | x
          · exact Or.inl rfl
          · right
            refine ⟨x, rfl, ?_⟩
            rw [h] at hle
            simpa [sqlLe] using hle
    · rintro ⟨hm, hc, hd⟩
      refine ⟨hm, ?_⟩
      rw [Bool.and_eq_true]
      refine ⟨by simp [hc], ?_⟩
      rw [Bool.or_eq_true]
      rcases hd with hn | ⟨x, hx, hle⟩
      · left; simp [hn]
      · right; simp [sqlLe, hx, hle]
  · have hp := pairwise_sortOrd taskOrd taskOrd_total taskOrd_trans
      (db.tasks.filter (fun t =>
        !t.completed && (t.due_date == none || sqlLe t.due_date (today + days_ahead))))
    refine List.Pairwise.imp ?_ hp
    intro t1 t2 h
    unfold taskOrd at h
    constructor
    · intro hn
      rcases h2 : t2.due_date with _ | y
      · rfl
      · rw [hn, h2] at h
        simp at h
    · intro x y hx hy
      rw [hx, hy] at h
      simp at h
      rcases h with h | ⟨h, _⟩
      · omega
      · omega

/-- A `%` at the head of a `LIKE` pattern matches when the rest of the
pattern matches some suffix of the string. -/
theorem likeMatch_pct (p : List Char) : ∀ s : List Char,
    (likeMatch ('%' :: p) s = true ↔ ∃ t, t <:+ s ∧ likeMatch p t = true) := by
  intro s
  induction s with
  | nil =>
    simp only [likeMatch, if_pos rfl, Bool.or_false]
    constructor
    · intro h
      exact ⟨[], List.nil_suffix, h⟩
    · rintro ⟨t, ht, hp⟩
      rcases List.suffix_nil.mp ht with rfl
      exact hp
  | cons c s' ih =>
    rw [show likeMatch ('%' :: p) (c :: s') =
        (likeMatch p (c :: s') || likeMatch ('%' :: p) s') from by
      simp [likeMatch]]
    rw [Bool.or_eq_true, ih]
    constructor
    · rintro (h | ⟨t, ht, hp⟩)
      · exact ⟨c :: s', List.suffix_refl _, h⟩
      · exact ⟨t, ht.trans (List.suffix_cons c s'), hp⟩
    · rintro ⟨t, ht, hp⟩
      rcases List.suffix_cons_iff.mp ht with rfl | ht'
      · exact Or.inl hp
      · exact Or.inr ⟨t, ht', hp⟩

/-- A wildcard-free `LIKE` pattern followed by `%` matches exactly the
strings it is an ASCII-case-insensitive prefix of. -/
theorem likeMatch_plain (q : List Char) (hq : ∀ c ∈ q, c ≠ '%' ∧ c ≠ '_') :
    ∀ s : List Char,
      (likeMatch (q ++ ['%']) s = true ↔ (q.map lowerChar) <+: (s.map lowerChar)) := by
  induction q with
  | nil =>
    intro s
    simp only [List.nil_append, List.map_nil]
    constructor
    · intro _
      exact List.nil_prefix
    · intro _
      rw [show (['%'] : List Char) = '%' :: [] from rfl, likeMatch_pct]
      exact ⟨[], List.nil_suffix, by simp [likeMatch]⟩
  | cons c q ih =>
    intro s
    have hc := hq c (List.mem_cons_self c q)
    have hq' : ∀ x ∈ q, x ≠ '%' ∧ x ≠ '_' := fun x hx => hq x (List.mem_cons_of_mem c hx)
    cases s with
    | nil =>
      simp only [List.cons_append, List.map_cons, List.map_nil]
      rw [show likeMatch (c :: (q ++ ['%'])) [] = false from by simp [likeMatch, hc.1]]
      simp
    | cons d s' =>
      simp only [List.cons_append, List.map_cons]
      rw [show likeMatch (c :: (q ++ ['%'])) (d :: s') =
          ((lowerChar c == lowerChar d) && likeMatch (q ++ ['%']) s') from by
        simp [likeMatch, hc.1, hc.2]]
      rw [Bool.and_eq_true, beq_iff_eq, ih hq' s']
      constructor
      · rintro ⟨h1, h2⟩
        rw [h1]
        exact List.cons_prefix_cons.mpr ⟨rfl, h2⟩
      · intro h
        exact List.cons_prefix_cons.mp h

/-- For a wildcard-free query `q`, the pattern `%q%` matches exactly the
strings containing `q` as an ASCII-case-insensitive substring. -/
theorem likeMatch_contains (q s : List Char) (hq : ∀ c ∈ q, c ≠ '%' ∧ c ≠ '_') :
    likeMatch ('%' :: (q ++ ['%'])) s = true ↔
      (q.map lowerChar) <:+: (s.map lowerChar) := by
  rw [likeMatch_pct]
  constructor
  · rintro ⟨t, ht, hp⟩
    rw [likeMatch_plain q hq t] at hp
    exact List.infix_iff_prefix_suffix.mpr
      ⟨t.map lowerChar, hp, List.IsSuffix.map lowerChar ht⟩
  · intro h
    rcases List.infix_iff_prefix_suffix.mp h with ⟨u, hpre, hsuf⟩
    rcases List.isSuffix_map_iff.mp hsuf with ⟨t, hts, rfl⟩
    exact ⟨t, hts, (likeMatch_plain q hq t).mpr hpre⟩

/-- C6 (amended): for every query without the `LIKE` wildcards `%` and
`_`, `search_animals` returns exactly the animals whose electronic id or
visual tag contains the query as an ASCII-case-insensitive substring. -/
theorem search_animals_ci_substring (db : DB) (q : String)
    (hq : ∀ c ∈ q.data, c ≠ '%' ∧ c ≠ '_') (a : Animal) :
    a ∈ search_animals db q ↔
      a ∈ db.animals ∧
        ((q.data.map lowerChar) <:+: (a.eid.data.map lowerChar) ∨
         (q.data.map lowerChar) <:+: (a.visual_tag.data.map lowerChar)) := by
  rw [show search_animals db q = sortOrd animalTagOrd (db.animals.filter (fun a =>
      likeMatch ('%' :: (q.data ++ ['%'])) a.eid.data ||
        likeMatch ('%' :: (q.data ++ ['%'])) a.visual_tag.data)) from rfl]
  rw [mem_sortOrd, List.mem_filter, Bool.or_eq_true]
  rw [likeMatch_contains q.data a.eid.data hq, likeMatch_contains q.data a.visual_tag.data hq]

/-- Witness for C6: a query without wildcards finds the animal whose
electronic id contains it. -/
theorem search_animals_ci_substring_witness :
    ({id := some 1, eid := "X420"} : Animal) ∈
      search_animals {animals := [{id := some 1, eid := "X420"}], next_animal_id := 2} "42" :=
  (search_animals_ci_substring
      {animals := [{id := some 1, eid := "X420"}], next_animal_id := 2} "42"
      (by decide) {id := some 1, eid := "X420"}).mpr
    ⟨by simp, Or.inl (by decide)⟩

/-- The animal of the C6 counterexample: its id fields do not contain the
character `_` at all. -/
def wildcardAnimal : Animal := {id := some 1, eid := "A"}

/-- C6 counterexample: for the query `_`, `search_animals` returns an
animal although neither its tag nor its electronic id contains `_` as a
(case-insensitive) substring — `LIKE` reads `_` as a wildcard. -/
theorem search_animals_wildcard_counterexample :
    search_animals {animals := [wildcardAnimal], next_animal_id := 2} "_" = [wildcardAnimal] ∧
      ¬ ((("_".data.map lowerChar) <:+: (wildcardAnimal.eid.data.map lowerChar)) ∨
         (("_".data.map lowerChar) <:+: (wildcardAnimal.visual_tag.data.map lowerChar))) :=
  ⟨by simp [search_animals, likeMatch, lowerChar, sortOrd, insOrd, wildcardAnimal,
      animalTagOrd, strPairOrd],
   by decide⟩

/-- Witness for C7: a concrete pending-task query containing its overdue
task. -/
theorem pending_tasks_window_and_order_witness :
    ({id := some 1, title := "a", due_date := some 3, created_at := some 1} : Task) ∈
      get_pending_tasks
        {tasks := [{id := some 2, title := "b", created_at := some 2},
                   {id := some 1, title := "a", due_date := some 3, created_at := some 1}],
         next_task_id := 3} 0 7 :=
  ((pending_tasks_window_and_order
      {tasks := [{id := some 2, title := "b", created_at := some 2},
                 {id := some 1, title := "a", due_date := some 3, created_at := some 1}],
       next_task_id := 3} 0 7).2.1 _).mpr
    (by refine ⟨by decide, rfl, Or.inr ⟨3, rfl, by omega⟩⟩)

end Stockbook
